import Mathlib

/-!
Shallow embedding of the dispatcher-dashboard task monitor: district routing,
modal-open retry protocol, canvas photo extraction, Telegram media batching,
the processed/pending-failure registry state machine, the retry sweep and the
periodic report flush.  Definitions are translated from the monitor source;
theorems below settle the specification claims against them.
-/

namespace Trabli

/-- Lowercasing of one character as Python str.lower does on the alphabets the
monitor handles: uppercase Cyrillic А..Я and Ё, plus ASCII A..Z. -/
def pyLowerChar (c : Char) : Char :=
  if 'А' ≤ c ∧ c ≤ 'Я' then Char.ofNat (c.toNat + 32)
  else if c = 'Ё' then 'ё'
  else if 'A' ≤ c ∧ c ≤ 'Z' then Char.ofNat (c.toNat + 32)
  else c

/-- Lowercase a whole string (as a character list), Python str.lower. -/
def pyLower (s : List Char) : List Char := s.map pyLowerChar

/-- Contiguous-substring test, Python `needle in hay`. -/
def listInfix (needle hay : List Char) : Bool :=
  decide (List.IsInfix needle hay)

/-- The three Telegram destinations of the monitor (chat_ids keys). -/
inductive ChatKey where
  | podolsk
  | chekhov
  | south
deriving DecidableEq

/-- Configuration surface of ElementMonitor.__init__ that the modelled core
reads.  An empty chat string means the chat is unconfigured (falsy in Python).
pyHash stands for the process-local Python hash function over address
strings; the code is parametric in it. -/
structure Config where
  maxRetryAttempts : Nat
  googleEnabled : Bool
  telegramEnabled : Bool
  sendMediaGroup : Bool
  chatPodolsk : String
  chatChekhov : String
  chatSouth : String
  pyHash : String → Int

/-- The chat_ids dictionary lookup. -/
def chatId (cfg : Config) : ChatKey → String
  | .podolsk => cfg.chatPodolsk
  | .chekhov => cfg.chatChekhov
  | .south => cfg.chatSouth

/-- Insertion order of the chat_ids dictionary. -/
def chatKeysAll : List ChatKey := [.podolsk, .chekhov, .south]

/-- The fixed district keyword to chat-key mapping, in dictionary insertion
order (district_to_chat_key). -/
def districtToChatKey : List (List Char × ChatKey) :=
  [("подольск".data, .podolsk),
   ("чехов".data, .chekhov),
   ("серпухов".data, .south),
   ("пущино".data, .south),
   ("протвино".data, .south)]

/-- All configured chat ids, in chat_ids order. -/
def allConfiguredChats (cfg : Config) : List String :=
  (chatKeysAll.filter (fun k => chatId cfg k != "")).map (chatId cfg)

/-- First-match keyword scan of get_target_chats: on the first keyword
contained in the lowered district, return that single chat if configured and
the empty list otherwise; no further keywords are tried. -/
def firstKeywordMatch (cfg : Config) (dl : List Char) :
    List (List Char × ChatKey) → List String
  | [] => []
  | (kw, key) :: rest =>
    if listInfix kw dl then
      if chatId cfg key != "" then [chatId cfg key] else []
    else firstKeywordMatch cfg dl rest

/-- ElementMonitor.get_target_chats: district routing policy. -/
def get_target_chats (cfg : Config) (district : String) : List String :=
  if district = "" then []
  else
    let dl := pyLower district.data
    if listInfix "#н/д".data dl || dl == "#н/д".data || listInfix "н/д".data dl then
      allConfiguredChats cfg
    else firstKeywordMatch cfg dl districtToChatKey

/-- Result of one open_task_modal call: whether a modal opened, how many of
the click attempts were consumed, and how many press_esc_to_close_modal
recovery calls were issued (one after each failed attempt). -/
structure ModalResult where
  opened : Bool
  attemptsUsed : Nat
  escCalls : Nat
deriving DecidableEq

/-- ElementMonitor.open_task_modal over the sequence of per-attempt
environment outcomes (true when a modal-open indicator appeared within the
per-attempt timeout; false covers no-indicator, stale element and any other
exception, all of which take the esc-and-retry path).  The list length is the
retries bound. -/
def open_task_modal : List Bool → ModalResult
  | [] => { opened := false, attemptsUsed := 0, escCalls := 0 }
  | o :: rest =>
    if o then { opened := true, attemptsUsed := 1, escCalls := 0 }
    else
      let r := open_task_modal rest
      { opened := r.opened, attemptsUsed := r.attemptsUsed + 1,
        escCalls := r.escCalls + 1 }

/-- Number of escape keypresses one press_esc_to_close_modal call issues
(its for-loop sends ESC three times). -/
def escKeyPressesPerClose : Nat := 3

/-- A photo byte blob. -/
abbrev Blob := List Nat

/-- Outcome of the canvas photo-extraction loop: retained blobs in page
order, the photos_captured increments and the photos_failed increments. -/
structure PhotoExtract where
  kept : List Blob
  captured : Nat
  failed : Nat
deriving DecidableEq

/-- The per-image branch of extract_task_data over the decoded canvas
results.  An entry is none when the data URL had no comma or decoding raised
(photos_failed); a decoded blob is kept only when strictly larger than 1024
bytes, otherwise it is counted as failed and dropped. -/
def extract_photos : List (Option Blob) → PhotoExtract
  | [] => { kept := [], captured := 0, failed := 0 }
  | none :: rest =>
    let r := extract_photos rest
    { kept := r.kept, captured := r.captured, failed := r.failed + 1 }
  | some b :: rest =>
    let r := extract_photos rest
    if 1024 < b.length then
      { kept := b :: r.kept, captured := r.captured + 1, failed := r.failed }
    else
      { kept := r.kept, captured := r.captured, failed := r.failed + 1 }

/-- One entry of the sendMediaGroup payload: the blob and the caption
attached to it, if any. -/
structure MediaItem where
  blob : Blob
  cap : Option (List Char)
deriving DecidableEq

/-- The media-list construction loop of
TelegramBot.send_media_group_bytes_to_chat: enumerate the (already
10-truncated) photo list; skip empty blobs and blobs under 1024 bytes; the
item built at enumeration index 0 carries the caption truncated to 1024
characters when the caption is nonempty. -/
def buildMediaItems (caption : List Char) : Nat → List Blob → List MediaItem
  | _, [] => []
  | i, b :: rest =>
    if b.length = 0 ∨ b.length < 1024 then buildMediaItems caption (i + 1) rest
    else
      { blob := b,
        cap := if i = 0 ∧ caption ≠ [] then some (caption.take 1024) else none }
        :: buildMediaItems caption (i + 1) rest

/-- TelegramBot.send_media_group_bytes_to_chat as the batch it posts: none
when the function returns false without any network call (bot disabled, no
chat id, empty input, or no valid item), some items when a sendMediaGroup
request with exactly those items is issued. -/
def send_media_group_bytes (enabled hasChat : Bool) (photos : List Blob)
    (caption : List Char) : Option (List MediaItem) :=
  if enabled = false then none
  else if hasChat = false then none
  else if photos = [] then none
  else
    let items := buildMediaItems caption 0 (photos.take 10)
    if items = [] then none else some items

/-- Network activity of ElementMonitor.send_photos_with_caption_to_chat:
nothing, one media-group batch, or a first captioned single photo followed by
caption-less singles. -/
inductive SendAction where
  | noSend
  | mediaGroup (items : List MediaItem)
  | singles (first : Blob) (firstCap : Option (List Char)) (rest : List Blob)
deriving DecidableEq

/-- ElementMonitor.send_photos_with_caption_to_chat: filter to blobs strictly
larger than 1024 bytes; with media groups enabled and more than one valid
photo, delegate to send_media_group_bytes; otherwise send singles with the
truncated caption on the first. -/
def send_photos_with_caption (cfg : Config) (enabled hasChat : Bool)
    (photos : List Blob) (caption : List Char) : SendAction :=
  if enabled = false then .noSend
  else if hasChat = false then .noSend
  else
    let valid := photos.filter (fun b => decide (1024 < b.length))
    if valid = [] then .noSend
    else if cfg.sendMediaGroup = true ∧ 1 < valid.length then
      match send_media_group_bytes true hasChat valid caption with
      | some items => .mediaGroup items
      | none => .noSend
    else
      .singles (valid.headD []) (some (caption.take 1024)) valid.tail

/-- Identity of a discovered task: the best-effort task id parsed out of the
ng-click attribute (absent when no digits matched) and the visible address
text. -/
structure TaskInfo where
  task_id : Option String
  address : String
deriving DecidableEq

/-- Python string interpolation of a possibly-absent task id. -/
def pyStrOfId : Option String → String
  | none => "None"
  | some s => s

/-- The identity key both process_task and the discovery loop compute:
f"task_id underscore hash(address)" rendered over the run's hash function. -/
def taskKey (cfg : Config) (t : TaskInfo) : String :=
  pyStrOfId t.task_id ++ "_" ++ toString (cfg.pyHash t.address)

/-- Fields of the extracted task record that the registry core consumes. -/
structure TaskData where
  address : String
  city_district : String
  driver_name : String
  vehicle : String
  problem : String
  photos_data : List Blob
deriving DecidableEq

/-- Environment outcome of one process_task invocation: whether the modal
opened, what extraction produced, the results of the Google append, the CSV
append and the JSON backup, and the Лист2 address lookup result applied by
the Google add_row before routing. -/
structure TaskOutcome where
  modalOpens : Bool
  extracted : TaskData
  googleOk : Bool
  csvOk : Bool
  jsonOk : Bool
  vlookup : Option String
deriving DecidableEq

/-- One failed_tasks entry. -/
structure FailInfo where
  attempts : Nat
  last_seen : Nat
  task : TaskInfo
deriving DecidableEq

/-- The run counters the modelled core touches. -/
structure Stats where
  tasks_processed : Nat
  tasks_retried : Nat
  tasks_failed_permanent : Nat
  saved_to_google : Nat
  saved_to_csv : Nat
deriving DecidableEq

/-- Increment of the permanent-failure counter. -/
def incPermanent (s : Stats) : Stats :=
  { s with tasks_failed_permanent := s.tasks_failed_permanent + 1 }

/-- All-zero counters at startup. -/
def zeroStats : Stats :=
  { tasks_processed := 0, tasks_retried := 0, tasks_failed_permanent := 0,
    saved_to_google := 0, saved_to_csv := 0 }

/-- The registry state: the processed set, the pending-failure map
(association list in dict insertion order) and the counters. -/
structure MonitorState where
  processed : List String
  failed : List (String × FailInfo)
  stats : Stats
deriving DecidableEq

/-- Registry state at startup. -/
def initialState : MonitorState := { processed := [], failed := [], stats := zeroStats }

/-- Lookup in the failed_tasks dict. -/
def alookup : List (String × FailInfo) → String → Option FailInfo
  | [], _ => none
  | (k, v) :: rest, key => if k = key then some v else alookup rest key

/-- Assignment into the failed_tasks dict: replace in place or append. -/
def ainsert : List (String × FailInfo) → String → FailInfo → List (String × FailInfo)
  | [], key, v => [(key, v)]
  | (k, w) :: rest, key, v =>
    if k = key then (k, v) :: rest else (k, w) :: ainsert rest key v

/-- Deletion from the failed_tasks dict. -/
def aerase (l : List (String × FailInfo)) (key : String) : List (String × FailInfo) :=
  l.filter (fun p => decide (p.1 ≠ key))

/-- Keys of the failed_tasks dict. -/
def akeys (l : List (String × FailInfo)) : List String := l.map Prod.fst

/-- A durable write performed by save_task_data. -/
inductive WriteKind where
  | google
  | csv
  | json
deriving DecidableEq

/-- Observable pipeline events of a run, each tagged with the identity key of
the task it concerns. -/
inductive Event where
  | write (key : String) (w : WriteKind)
  | send (key : String) (chat : String)
  | success (key : String)
deriving DecidableEq

/-- Identity key an event concerns. -/
def eventKey : Event → String
  | .write k _ => k
  | .send k _ => k
  | .success k => k

/-- Whether any event of the list concerns the key. -/
def hasKey (K : String) (evs : List Event) : Bool :=
  evs.any (fun e => eventKey e == K)

/-- Number of success events for the key. -/
def succCount (K : String) (evs : List Event) : Nat :=
  evs.count (Event.success K)

/-- Result of save_task_data: its boolean return, the durable writes that
succeeded, and the updated counters. -/
structure SaveResult where
  ok : Bool
  writes : List Event
  stats : Stats
deriving DecidableEq

/-- ElementMonitor.save_task_data: append to Google Sheets when configured,
always append the CSV row, always attempt the daily JSON backup (its failure
is swallowed); return whether Google or CSV succeeded. -/
def save_task_data (cfg : Config) (key : String) (out : TaskOutcome)
    (st : Stats) : SaveResult :=
  let googleDone := cfg.googleEnabled && out.googleOk
  let st1 :=
    if googleDone then { st with saved_to_google := st.saved_to_google + 1 } else st
  let st2 :=
    if out.csvOk then { st1 with saved_to_csv := st1.saved_to_csv + 1 } else st1
  { ok := googleDone || out.csvOk,
    writes :=
      (if googleDone then [Event.write key .google] else []) ++
      (if out.csvOk then [Event.write key .csv] else []) ++
      (if out.jsonOk then [Event.write key .json] else []),
    stats := st2 }

/-- District value after save_task_data: the Google add_row overwrites
city_district with the Лист2 lookup result when the lookup hits. -/
def effectiveDistrict (cfg : Config) (out : TaskOutcome) : String :=
  match cfg.googleEnabled, out.vlookup with
  | true, some d => d
  | _, _ => out.extracted.city_district

/-- Result of one process_task call: its boolean return, the state after it,
and the events it emitted in order. -/
structure ProcResult where
  ret : Bool
  state : MonitorState
  events : List Event
deriving DecidableEq

/-- ElementMonitor.process_task.  Skip keys already processed; fail without
state change when the modal does not open; with zero extracted photos either
mark a permanent failure (retry) or insert/bump the pending entry (first
pass); otherwise persist, route to Telegram, mark processed and drop any
pending entry.  Events record the durable writes, the per-chat send attempts
and the success transition, in program order. -/
def process_task (cfg : Config) (st : MonitorState) (t : TaskInfo)
    (is_retry : Bool) (now : Nat) (out : TaskOutcome) : ProcResult :=
  let key := taskKey cfg t
  if key ∈ st.processed then { ret := false, state := st, events := [] }
  else if out.modalOpens = false then { ret := false, state := st, events := [] }
  else if out.extracted.photos_data = [] then
    if is_retry then
      { ret := false,
        state := { st with stats := incPermanent st.stats },
        events := [] }
    else
      let prev := (alookup st.failed key).elim 0 FailInfo.attempts
      { ret := false,
        state := { st with failed := ainsert st.failed key ⟨prev + 1, now, t⟩ },
        events := [] }
  else
    let sres := save_task_data cfg key out st.stats
    if sres.ok = false then
      { ret := false, state := { st with stats := sres.stats }, events := sres.writes }
    else
      let sends :=
        if cfg.telegramEnabled then
          (get_target_chats cfg (effectiveDistrict cfg out)).map (fun c => Event.send key c)
        else []
      { ret := true,
        state :=
          { processed := key :: st.processed,
            failed := aerase st.failed key,
            stats :=
              { sres.stats with
                tasks_processed := sres.stats.tasks_processed + 1,
                tasks_retried :=
                  sres.stats.tasks_retried + (if is_retry then 1 else 0) } },
        events := sres.writes ++ sends ++ [Event.success key] }

/-- One iteration of the discovery loop body for one found task: skip keys
already processed, otherwise run process_task as a first pass. -/
def discover_step (cfg : Config) (now : Nat) (st : MonitorState)
    (item : TaskInfo × TaskOutcome) : MonitorState × List Event :=
  if taskKey cfg item.1 ∈ st.processed then (st, [])
  else
    let r := process_task cfg st item.1 false now item.2
    (r.state, r.events)

/-- Environment of one retry-sweep entry: whether the stored element
reference is stale, whether find_task_by_id can re-resolve it, and the
process_task outcome if processing runs. -/
structure RetryEnv where
  stale : Bool
  refound : Bool
  out : TaskOutcome

/-- One entry of the retry sweep, threading the tasks_to_remove accumulator:
entries at the attempt limit are marked permanently failed and queued for
removal; entries unseen for over an hour are queued for removal; a stale
element is re-resolved by task id or the entry is queued for removal;
otherwise the entry is reprocessed as a retry. -/
def retry_step (cfg : Config) (now : Nat) (env : String → RetryEnv)
    (s : MonitorState × List String) (e : String × FailInfo) :
    (MonitorState × List String) × List Event :=
  let st := s.1
  let acc := s.2
  if cfg.maxRetryAttempts ≤ e.2.attempts then
    (({ st with stats := incPermanent st.stats }, acc ++ [e.1]), [])
  else if 3600 < now - e.2.last_seen then
    ((st, acc ++ [e.1]), [])
  else
    let ev := env e.1
    if ev.stale then
      if e.2.task.task_id.isSome ∧ ev.refound then
        let r := process_task cfg st e.2.task true now ev.out
        ((r.state, acc), r.events)
      else ((st, acc ++ [e.1]), [])
    else
      let r := process_task cfg st e.2.task true now ev.out
      ((r.state, acc), r.events)

/-- Generic sequential fold of steps that thread a state and emit events. -/
def foldSteps {S ι : Type} (f : S → ι → S × List Event) : S → List ι → S × List Event
  | s, [] => (s, [])
  | s, i :: rest =>
    let r1 := f s i
    let r2 := foldSteps f r1.1 rest
    (r2.1, r1.2 ++ r2.2)

/-- ElementMonitor.retry_failed_tasks: no-op on an empty queue; otherwise
iterate a snapshot of the queue through retry_step, then delete every key
queued for removal. -/
def retry_failed_tasks (cfg : Config) (st : MonitorState)
    (env : String → RetryEnv) (now : Nat) : MonitorState × List Event :=
  if st.failed = [] then (st, [])
  else
    let r := foldSteps (retry_step cfg now env) (st, []) st.failed
    ({ r.1.1 with failed := r.1.2.foldl aerase r.1.1.failed }, r.2)

/-- One pipeline operation of the monitoring loop. -/
inductive Op where
  | discover (items : List (TaskInfo × TaskOutcome)) (now : Nat)
  | retrySweep (env : String → RetryEnv) (now : Nat)
  | reportFlush

/-- Execute one pipeline operation on the registry state.  The report flush
touches only the report accumulator, which lives outside MonitorState. -/
def runOp (cfg : Config) (st : MonitorState) : Op → MonitorState × List Event
  | .discover items now => foldSteps (discover_step cfg now) st items
  | .retrySweep env now => retry_failed_tasks cfg st env now
  | .reportFlush => (st, [])

/-- Execute a run: a sequence of pipeline operations from a state. -/
def runOps (cfg : Config) (st : MonitorState) (ops : List Op) : MonitorState × List Event :=
  foldSteps (fun s op => runOp cfg s op) st ops

/-- Execute a run from the startup state. -/
def runFromStart (cfg : Config) (ops : List Op) : MonitorState × List Event :=
  runOps cfg initialState ops

/-- Per-chat report accumulator: driver and vehicle pair to problem counts,
in insertion order. -/
abbrev ChatReport := List ((String × String) × List (String × Nat))

/-- The report_stats structure over the three chats. -/
structure ReportStats where
  podolsk : ChatReport
  chekhov : ChatReport
  south : ChatReport
deriving DecidableEq

/-- Accumulator component for one chat key. -/
def ReportStats.get (rs : ReportStats) : ChatKey → ChatReport
  | .podolsk => rs.podolsk
  | .chekhov => rs.chekhov
  | .south => rs.south

/-- The reset value the flush installs. -/
def emptyReportStats : ReportStats := { podolsk := [], chekhov := [], south := [] }

/-- Report heading line. -/
def reportHeader : String := "<b>📊 ОТЧЁТ ЗА ПЕРИОД</b>"

/-- The notice sent for a window with no recorded events. -/
def emptyReportText (lastTime now : String) : String :=
  reportHeader ++ "\n\n<i>" ++ lastTime ++ " – " ++ now ++
    "</i>\n\nЗа указанный период не было обработано ни одного задания."

/-- Per-problem bullet lines of one driver block. -/
def problemLines (problems : List (String × Nat)) : List String :=
  problems.map (fun p => "  • " ++ p.1 ++ ": " ++ toString p.2)

/-- Driver blocks of a non-empty report. -/
def statsLines : ChatReport → List String
  | [] => []
  | ((driver, vehicle), problems) :: rest =>
    (("<b>" ++ driver ++ "</b> (" ++ vehicle ++ "):") :: problemLines problems)
      ++ [""] ++ statsLines rest

/-- Newline join, Python str.join. -/
def joinLines : List String → String
  | [] => ""
  | [x] => x
  | x :: y :: rest => x ++ "\n" ++ joinLines (y :: rest)

/-- Report text for one chat: the explicit empty-window notice, or the header
and the per-driver blocks. -/
def reportText (stats : ChatReport) (lastTime now : String) : String :=
  if stats = [] then emptyReportText lastTime now
  else
    joinLines
      (reportHeader :: ("<i>" ++ lastTime ++ " – " ++ now ++ "</i>\n") :: statsLines stats)

/-- ElementMonitor.send_reports: one message per configured chat (empty
window or not), then reset every accumulator and the window start.  Returns
the sent (chat id, text) pairs, the new accumulator and the new window
start. -/
def send_reports (cfg : Config) (rs : ReportStats) (lastTime now : String) :
    List (String × String) × ReportStats × String :=
  ((chatKeysAll.filter (fun k => chatId cfg k != "")).map
      (fun k => (chatId cfg k, reportText (rs.get k) lastTime now)),
    emptyReportStats, now)

/-- Disjointness invariant of the registry: no identity key is at once in
the processed set and in the pending-failure map. -/
def disjointPF (st : MonitorState) : Prop :=
  ∀ K : String, ¬(K ∈ st.processed ∧ K ∈ akeys st.failed)

/-- Sample configuration for concrete instantiations: all three chats
configured, default retry limit, trivial hash. -/
def cfgA : Config :=
  { maxRetryAttempts := 3, googleEnabled := false, telegramEnabled := true,
    sendMediaGroup := true, chatPodolsk := "P", chatChekhov := "C",
    chatSouth := "S", pyHash := fun _ => 0 }

/-- Sample discovered task; its identity key under cfgA is "7_0". -/
def taskA : TaskInfo := { task_id := some "7", address := "адрес" }

/-- Sample outcome with one extracted photo and a working local store. -/
def outPhoto : TaskOutcome :=
  { modalOpens := true,
    extracted := { address := "", city_district := "", driver_name := "",
                   vehicle := "", problem := "", photos_data := [[0]] },
    googleOk := false, csvOk := true, jsonOk := true, vlookup := none }

/-- Sample outcome whose extraction yields zero photos. -/
def outNoPhotos : TaskOutcome :=
  { modalOpens := true,
    extracted := { address := "", city_district := "", driver_name := "",
                   vehicle := "", problem := "", photos_data := [] },
    googleOk := false, csvOk := true, jsonOk := true, vlookup := none }

/-- Retry environment: element healthy, extraction yields zero photos. -/
def envNoPhotos : String → RetryEnv :=
  fun _ => { stale := false, refound := false, out := outNoPhotos }

/-- Registry state with one pending entry for taskA at one prior attempt,
last seen at time 1000. -/
def stPending : MonitorState :=
  { processed := [],
    failed := [("7_0", { attempts := 1, last_seen := 1000, task := taskA })],
    stats := zeroStats }

/-- Sample valid photo blob, 1025 bytes. -/
def blobBig : Blob := List.replicate 1025 0

/-- Sample photo list for the media-group path: two valid blobs and one
that is too small. -/
def photosSample : List Blob := [blobBig, List.replicate 10 1, blobBig]

theorem open_task_modal_first_success (rest : List Bool) :
    ∀ pre : List Bool, (∀ b ∈ pre, b = false) →
      open_task_modal (pre ++ true :: rest) =
        { opened := true, attemptsUsed := pre.length + 1, escCalls := pre.length } := by
  intro pre
  induction pre with
  | nil => intro _; simp [open_task_modal]
  | cons a tl ih =>
    intro h
    have ha : a = false := h a (by simp)
    have htl : ∀ b ∈ tl, b = false := fun b hb => h b (by simp [hb])
    subst ha
    simp [open_task_modal, ih htl]

theorem open_task_modal_all_fail :
    ∀ outcomes : List Bool, (∀ b ∈ outcomes, b = false) →
      open_task_modal outcomes =
        { opened := false, attemptsUsed := outcomes.length, escCalls := outcomes.length } := by
  intro outcomes
  induction outcomes with
  | nil => intro _; simp [open_task_modal]
  | cons a tl ih =>
    intro h
    have ha : a = false := h a (by simp)
    have htl : ∀ b ∈ tl, b = false := fun b hb => h b (by simp [hb])
    subst ha
    simp [open_task_modal, ih htl]

/-- C5: in open_task_modal, when the modal-open indicator first appears on
attempt k of the retry budget, the call returns true immediately at attempt
k after exactly one escape-recovery call per earlier failed attempt; when
every attempt fails, it returns false and an escape-recovery call (three ESC
keypresses) was issued after every failed attempt, leaving no dangling
modal. -/
theorem c5_modal_protocol :
    (∀ (pre rest : List Bool), (∀ b ∈ pre, b = false) →
      open_task_modal (pre ++ true :: rest) =
        { opened := true, attemptsUsed := pre.length + 1, escCalls := pre.length }) ∧
    (∀ outcomes : List Bool, (∀ b ∈ outcomes, b = false) →
      open_task_modal outcomes =
        { opened := false, attemptsUsed := outcomes.length,
          escCalls := outcomes.length }) :=
  ⟨fun pre rest h => open_task_modal_first_success rest pre h,
   open_task_modal_all_fail⟩

/-- C5 witness: success on attempt 2 of 3 (one failed attempt, one recovery
cycle), and failure on all 3 attempts (three recovery calls). -/
theorem c5_modal_protocol_witness :
    open_task_modal [false, true, false] =
      { opened := true, attemptsUsed := 2, escCalls := 1 } ∧
    open_task_modal [false, false, false] =
      { opened := false, attemptsUsed := 3, escCalls := 3 } :=
  ⟨c5_modal_protocol.1 [false] [false] (by decide),
   c5_modal_protocol.2 [false, false, false] (by decide)⟩

/-- C7 counterexample: a decoded blob of exactly 1024 bytes is not under the
1024-byte threshold, yet extract_task_data discards it and counts it as a
capture failure (the code keeps a blob only when strictly larger than 1024
bytes). -/
theorem c7_photo_threshold_counterexample :
    (extract_photos [some (List.replicate 1024 0)]).kept = [] ∧
    (extract_photos [some (List.replicate 1024 0)]).failed = 1 ∧
    ¬((List.replicate 1024 (0 : Nat)).length < 1024) := by
  have hnot : ¬(1024 < (List.replicate 1024 (0 : Nat)).length) := by
    rw [List.length_replicate]
    omega
  refine ⟨?_, ?_, ?_⟩
  · simp only [extract_photos, if_neg hnot]
  · simp only [extract_photos, if_neg hnot]
  · rw [List.length_replicate]
    omega

/-- C7 as amended: a decoded blob is retained (in order, counted in
photos_captured) exactly when it is strictly larger than 1024 bytes; every
other entry — a blob of at most 1024 bytes or a failed decode — is counted
in photos_failed and discarded. -/
theorem c7_photo_threshold :
    ∀ input : List (Option Blob),
      (extract_photos input).kept =
        (input.filterMap id).filter (fun b => decide (1024 < b.length)) ∧
      (extract_photos input).captured = (extract_photos input).kept.length ∧
      (extract_photos input).captured + (extract_photos input).failed = input.length := by
  intro input
  induction input with
  | nil => simp [extract_photos]
  | cons a tl ih =>
    obtain ⟨h1, h2, h3⟩ := ih
    cases a with
    | none =>
      refine ⟨by simp [extract_photos, h1], by simp [extract_photos, h2], ?_⟩
      simp only [extract_photos, List.length_cons]
      omega
    | some b =>
      by_cases hb : 1024 < b.length
      · refine ⟨?_, ?_, ?_⟩
        · simp [extract_photos, hb, h1]
        · simp [extract_photos, hb, h2]
        · simp only [extract_photos, if_pos hb, List.length_cons]
          omega
      · refine ⟨?_, ?_, ?_⟩
        · simp [extract_photos, hb, h1]
        · simp [extract_photos, hb, h2]
        · simp only [extract_photos, if_neg hb, List.length_cons]
          omega

theorem listInfix_iff (n h : List Char) : listInfix n h = true ↔ List.IsInfix n h := by
  simp [listInfix]

theorem nd_of_hashNd (dl : List Char) (h : listInfix "#н/д".data dl = true) :
    listInfix "н/д".data dl = true := by
  rw [listInfix_iff] at h ⊢
  exact List.IsInfix.trans (by decide) h

theorem route_empty_district (cfg : Config) : get_target_chats cfg "" = [] := by
  simp [get_target_chats]

theorem route_nd_broadcast (cfg : Config) (district : String) (h1 : district ≠ "")
    (h2 : listInfix "н/д".data (pyLower district.data) = true) :
    get_target_chats cfg district = allConfiguredChats cfg := by
  simp [get_target_chats, if_neg h1, h2]

theorem route_keyword_branch (cfg : Config) (district : String) (h1 : district ≠ "")
    (hnd : listInfix "н/д".data (pyLower district.data) = false) :
    get_target_chats cfg district =
      firstKeywordMatch cfg (pyLower district.data) districtToChatKey := by
  have hA : listInfix "#н/д".data (pyLower district.data) = false := by
    cases hh : listInfix "#н/д".data (pyLower district.data)
    · rfl
    · rw [nd_of_hashNd _ hh] at hnd
      exact absurd hnd (by simp)
  have hB : (pyLower district.data == "#н/д".data) = false := by
    cases hh : pyLower district.data == "#н/д".data
    · rfl
    · have heq : pyLower district.data = "#н/д".data := eq_of_beq hh
      rw [heq] at hnd
      have hin : listInfix "н/д".data "#н/д".data = true := by decide
      rw [hin] at hnd
      exact absurd hnd (by simp)
  simp [get_target_chats, if_neg h1, hA, hB, hnd]

theorem firstKeywordMatch_eq_find (cfg : Config) (dl : List Char) :
    ∀ l : List (List Char × ChatKey),
      firstKeywordMatch cfg dl l =
        match l.find? (fun p => listInfix p.1 dl) with
        | some p => if chatId cfg p.2 = "" then [] else [chatId cfg p.2]
        | none => [] := by
  intro l
  induction l with
  | nil => simp [firstKeywordMatch]
  | cons p tl ih =>
    cases h : listInfix p.1 dl
    · simp [firstKeywordMatch, h, List.find?_cons_of_neg, ih]
    · by_cases hc : chatId cfg p.2 = ""
      · simp [firstKeywordMatch, h, List.find?_cons_of_pos, hc]
      · simp [firstKeywordMatch, h, List.find?_cons_of_pos, hc]

theorem allConfigured_nodup (cfg : Config)
    (hpc : cfg.chatPodolsk ≠ "" → cfg.chatChekhov ≠ "" → cfg.chatPodolsk ≠ cfg.chatChekhov)
    (hps : cfg.chatPodolsk ≠ "" → cfg.chatSouth ≠ "" → cfg.chatPodolsk ≠ cfg.chatSouth)
    (hcs : cfg.chatChekhov ≠ "" → cfg.chatSouth ≠ "" → cfg.chatChekhov ≠ cfg.chatSouth) :
    (allConfiguredChats cfg).Nodup := by
  by_cases hp : cfg.chatPodolsk = "" <;> by_cases hc : cfg.chatChekhov = "" <;>
    by_cases hs : cfg.chatSouth = "" <;>
      simp_all [allConfiguredChats, chatKeysAll, chatId, List.nodup_cons]

/-- C4: district routing obeys the ordered policy of get_target_chats — an
empty district routes nowhere; a district containing the case-insensitive
marker Н/Д broadcasts to all configured channels, without duplicates when
the configured channel ids are pairwise distinct; otherwise the first
matching keyword of the fixed mapping yields that single channel, or
nothing when it is unconfigured; no keyword match routes nowhere.  The four
concrete example routes of the specification follow. -/
theorem c4_district_routing :
    (∀ cfg : Config, get_target_chats cfg "" = []) ∧
    (∀ (cfg : Config) (district : String), district ≠ "" →
      listInfix "н/д".data (pyLower district.data) = true →
      get_target_chats cfg district = allConfiguredChats cfg) ∧
    (∀ cfg : Config,
      (cfg.chatPodolsk ≠ "" → cfg.chatChekhov ≠ "" → cfg.chatPodolsk ≠ cfg.chatChekhov) →
      (cfg.chatPodolsk ≠ "" → cfg.chatSouth ≠ "" → cfg.chatPodolsk ≠ cfg.chatSouth) →
      (cfg.chatChekhov ≠ "" → cfg.chatSouth ≠ "" → cfg.chatChekhov ≠ cfg.chatSouth) →
      (allConfiguredChats cfg).Nodup) ∧
    (∀ (cfg : Config) (district : String) (p : List Char × ChatKey), district ≠ "" →
      listInfix "н/д".data (pyLower district.data) = false →
      districtToChatKey.find? (fun q => listInfix q.1 (pyLower district.data)) = some p →
      get_target_chats cfg district =
        if chatId cfg p.2 = "" then [] else [chatId cfg p.2]) ∧
    (∀ (cfg : Config) (district : String), district ≠ "" →
      listInfix "н/д".data (pyLower district.data) = false →
      districtToChatKey.find? (fun q => listInfix q.1 (pyLower district.data)) = none →
      get_target_chats cfg district = []) ∧
    (∀ cfg : Config, get_target_chats cfg "нет данных Н/Д" = allConfiguredChats cfg) ∧
    (∀ cfg : Config, cfg.chatPodolsk ≠ "" →
      get_target_chats cfg "г.о. Подольск" = [cfg.chatPodolsk]) ∧
    (∀ cfg : Config, get_target_chats cfg "неизвестный округ" = []) := by
  refine ⟨route_empty_district, route_nd_broadcast, allConfigured_nodup, ?_, ?_, ?_, ?_, ?_⟩
  · intro cfg district p h1 hnd hfind
    rw [route_keyword_branch cfg district h1 hnd, firstKeywordMatch_eq_find, hfind]
  · intro cfg district h1 hnd hfind
    rw [route_keyword_branch cfg district h1 hnd, firstKeywordMatch_eq_find, hfind]
  · intro cfg
    exact route_nd_broadcast cfg _ (by decide) (by decide)
  · intro cfg hpod
    have h := route_keyword_branch cfg "г.о. Подольск" (by decide) (by decide)
    rw [h, firstKeywordMatch_eq_find]
    have hfind : districtToChatKey.find?
        (fun q => listInfix q.1 (pyLower "г.о. Подольск".data)) =
          some ("подольск".data, ChatKey.podolsk) := by decide
    rw [hfind]
    simp [chatId, hpod]
  · intro cfg
    have h := route_keyword_branch cfg "неизвестный округ" (by decide) (by decide)
    rw [h, firstKeywordMatch_eq_find]
    have hfind : districtToChatKey.find?
        (fun q => listInfix q.1 (pyLower "неизвестный округ".data)) = none := by decide
    rw [hfind]

/-- C4 witness: the routing policy instantiated at the sample configuration
with all three channels configured and distinct. -/
theorem c4_district_routing_witness :
    get_target_chats cfgA "" = [] ∧
    get_target_chats cfgA "Н/Д" = allConfiguredChats cfgA ∧
    (allConfiguredChats cfgA).Nodup ∧
    get_target_chats cfgA "г.о. Подольск" = [cfgA.chatPodolsk] ∧
    get_target_chats cfgA "нет данных Н/Д" = allConfiguredChats cfgA ∧
    get_target_chats cfgA "неизвестный округ" = [] :=
  ⟨c4_district_routing.1 cfgA,
   c4_district_routing.2.1 cfgA "Н/Д" (by decide) (by decide),
   c4_district_routing.2.2.1 cfgA (by intro h1 h2; decide) (by intro h1 h2; decide)
     (by intro h1 h2; decide),
   c4_district_routing.2.2.2.2.2.2.1 cfgA (by decide),
   c4_district_routing.2.2.2.2.2.1 cfgA,
   c4_district_routing.2.2.2.2.2.2.2 cfgA⟩

theorem strAppend_ne_empty (a b : String) (h : a ≠ "") : a ++ b ≠ "" := by
  intro hab
  apply h
  have hd : (a ++ b).data = a.data ++ b.data := String.data_append a b
  rw [hab] at hd
  have ha : a.data = [] := (List.append_eq_nil.mp hd.symm).1
  cases a
  simp_all

theorem reportText_ne_empty (stats : ChatReport) (lastTime now : String) :
    reportText stats lastTime now ≠ "" := by
  cases stats with
  | nil =>
    rw [reportText, if_pos rfl, emptyReportText]
    exact strAppend_ne_empty _ _ (strAppend_ne_empty _ _ (strAppend_ne_empty _ _
      (strAppend_ne_empty _ _ (by decide))))
  | cons e rest =>
    rw [reportText, if_neg (by simp), joinLines]
    exact strAppend_ne_empty _ _ (strAppend_ne_empty _ _ (by decide))

/-- C9: a report flush sends exactly one message to every configured
channel, each message nonempty; when the accumulator is empty the message is
the explicit nothing-processed notice; and after every flush the
accumulators are reset to empty and the window start is reset to the flush
time, so no count carries into the next window. -/
theorem c9_report_flush :
    ∀ (cfg : Config) (rs : ReportStats) (lastTime now : String),
      (send_reports cfg rs lastTime now).2.1 = emptyReportStats ∧
      (send_reports cfg rs lastTime now).2.2 = now ∧
      (send_reports cfg rs lastTime now).1.map Prod.fst = allConfiguredChats cfg ∧
      (∀ m ∈ (send_reports cfg rs lastTime now).1, m.2 ≠ "") ∧
      (rs = emptyReportStats →
        (send_reports cfg rs lastTime now).1 =
          (chatKeysAll.filter (fun k => chatId cfg k != "")).map
            (fun k => (chatId cfg k, emptyReportText lastTime now))) := by
  intro cfg rs lastTime now
  refine ⟨rfl, rfl, ?_, ?_, ?_⟩
  · simp [send_reports, allConfiguredChats, List.map_map]
  · intro m hm
    simp only [send_reports, List.mem_map] at hm
    obtain ⟨k, _, hk⟩ := hm
    rw [← hk]
    exact reportText_ne_empty _ _ _
  · intro hrs
    subst hrs
    apply List.map_congr_left
    intro k _
    cases k <;> simp [reportText, ReportStats.get, emptyReportStats]

/-- C9 witness: flushing the empty accumulator at the sample configuration
resets state and produces one nothing-processed notice per configured
channel, in particular a nonempty message for the Podolsk channel. -/
theorem c9_report_flush_witness :
    (send_reports cfgA emptyReportStats "t0" "t1").2.1 = emptyReportStats ∧
    (send_reports cfgA emptyReportStats "t0" "t1").2.2 = "t1" ∧
    (send_reports cfgA emptyReportStats "t0" "t1").1 =
      (chatKeysAll.filter (fun k => chatId cfgA k != "")).map
        (fun k => (chatId cfgA k, emptyReportText "t0" "t1")) ∧
    ("P", emptyReportText "t0" "t1").2 ≠ "" :=
  ⟨(c9_report_flush cfgA emptyReportStats "t0" "t1").1,
   (c9_report_flush cfgA emptyReportStats "t0" "t1").2.1,
   (c9_report_flush cfgA emptyReportStats "t0" "t1").2.2.2.2 rfl,
   (c9_report_flush cfgA emptyReportStats "t0" "t1").2.2.2.1
     ("P", emptyReportText "t0" "t1") (by decide)⟩

theorem mapBlob_mkNone (l : List Blob) :
    (l.map (fun x => ({ blob := x, cap := none } : MediaItem))).map MediaItem.blob = l := by
  induction l with
  | nil => rfl
  | cons a t ih => simp only [List.map_cons, ih]

theorem buildMediaItems_valid_pos (caption : List Char) :
    ∀ (l : List Blob) (i : Nat), 0 < i → (∀ b ∈ l, 1024 < b.length) →
      buildMediaItems caption i l = l.map (fun b => ⟨b, none⟩) := by
  intro l
  induction l with
  | nil => intro i _ _; simp [buildMediaItems]
  | cons b tl ih =>
    intro i hi hall
    have hb : 1024 < b.length := hall b (by simp)
    have hcond : ¬(b.length = 0 ∨ b.length < 1024) := by omega
    have hne : ¬(i = 0 ∧ caption ≠ []) := fun hcontra => by omega
    rw [buildMediaItems, if_neg hcond, if_neg hne,
      ih (i + 1) (by omega) (fun x hx => hall x (by simp [hx]))]
    simp

theorem buildMediaItems_valid_zero (caption : List Char) (hcap : caption ≠ [])
    (b : Blob) (tl : List Blob) (hb : 1024 < b.length)
    (htl : ∀ x ∈ tl, 1024 < x.length) :
    buildMediaItems caption 0 (b :: tl) =
      ⟨b, some (caption.take 1024)⟩ :: tl.map (fun x => ⟨x, none⟩) := by
  have hcond : ¬(b.length = 0 ∨ b.length < 1024) := by omega
  rw [buildMediaItems, if_neg hcond, if_pos ⟨rfl, hcap⟩,
    buildMediaItems_valid_pos caption tl 1 (by omega) htl]

/-- C10: through send_photos_with_caption_to_chat with media groups enabled,
a media-group batch carries at most 10 photos (the qualifying photos beyond
the tenth are silently dropped), contains exactly the blobs strictly larger
than 1024 bytes in order, and attaches the caption, truncated to 1024
characters, to the first photo only; when no blob qualifies (in particular
on empty input) the call returns without any network send. -/
theorem c10_media_batch :
    ∀ (cfg : Config) (photos : List Blob) (caption : List Char),
      (photos.filter (fun b => decide (1024 < b.length)) = [] →
        send_photos_with_caption cfg true true photos caption = SendAction.noSend) ∧
      (cfg.sendMediaGroup = true →
        1 < (photos.filter (fun b => decide (1024 < b.length))).length →
        caption ≠ [] →
        ∃ items,
          send_photos_with_caption cfg true true photos caption =
            SendAction.mediaGroup items ∧
          items.length ≤ 10 ∧
          items.map MediaItem.blob =
            (photos.filter (fun b => decide (1024 < b.length))).take 10 ∧
          (∀ it ∈ items, 1024 < it.blob.length) ∧
          items.head?.map MediaItem.cap = some (some (caption.take 1024)) ∧
          (∀ it ∈ items.tail, it.cap = none)) := by
  intro cfg photos caption
  constructor
  · intro h
    simp [send_photos_with_caption, h]
  · intro hmg hlen hcap
    have hvalid_mem : ∀ b ∈ photos.filter (fun b => decide (1024 < b.length)),
        1024 < b.length := by
      intro b hb
      have := (List.mem_filter.mp hb).2
      simpa using this
    obtain ⟨b, tl, hbt⟩ : ∃ b tl,
        photos.filter (fun b => decide (1024 < b.length)) = b :: tl := by
      cases hval : photos.filter (fun b => decide (1024 < b.length)) with
      | nil => rw [hval] at hlen; simp at hlen
      | cons b tl => exact ⟨b, tl, rfl⟩
    have hb1024 : 1024 < b.length := hvalid_mem b (by rw [hbt]; simp)
    have htl9 : ∀ x ∈ tl.take 9, 1024 < x.length := by
      intro x hx
      exact hvalid_mem x (by rw [hbt]; exact List.mem_cons_of_mem _ (List.take_subset 9 tl hx))
    have htake : (photos.filter (fun b => decide (1024 < b.length))).take 10
        = b :: tl.take 9 := by
      rw [hbt]
      rfl
    have hbuild :
        buildMediaItems caption 0
            ((photos.filter (fun b => decide (1024 < b.length))).take 10) =
          ⟨b, some (caption.take 1024)⟩ :: (tl.take 9).map (fun x => ⟨x, none⟩) := by
      rw [htake]
      exact buildMediaItems_valid_zero caption hcap b (tl.take 9) hb1024 htl9
    have hsend : send_photos_with_caption cfg true true photos caption =
        SendAction.mediaGroup
          (⟨b, some (caption.take 1024)⟩ :: (tl.take 9).map (fun x => ⟨x, none⟩)) := by
      rw [send_photos_with_caption]
      rw [if_neg (by simp), if_neg (by simp)]
      rw [if_neg (by rw [hbt]; simp)]
      rw [if_pos ⟨hmg, hlen⟩]
      rw [send_media_group_bytes]
      rw [if_neg (by simp), if_neg (by simp), if_neg (by rw [hbt]; simp)]
      rw [hbuild]
      rw [if_neg (by simp)]
    refine ⟨_, hsend, ?_, ?_, ?_, ?_, ?_⟩
    · have h9 : (tl.take 9).length ≤ 9 := List.length_take_le 9 tl
      simp only [List.length_cons, List.length_map]
      omega
    · rw [htake]
      simp only [List.map_cons]
      rw [mapBlob_mkNone (tl.take 9)]
    · intro it hit
      rcases List.mem_cons.mp hit with h | h
      · rw [h]; exact hb1024
      · obtain ⟨x, hx, hxe⟩ := List.mem_map.mp h
        rw [← hxe]
        exact htl9 x hx
    · rfl
    · intro it hit
      obtain ⟨x, _, hxe⟩ := List.mem_map.mp hit
      rw [← hxe]

/-- C10 witness: the sample photo list (two valid blobs, one undersized)
with media groups enabled yields exactly one capped batch. -/
theorem c10_media_batch_witness :
    1 < (photosSample.filter (fun b => decide (1024 < b.length))).length ∧
    (∃ items,
      send_photos_with_caption cfgA true true photosSample "подпись".data =
        SendAction.mediaGroup items ∧
      items.length ≤ 10 ∧
      items.map MediaItem.blob =
        (photosSample.filter (fun b => decide (1024 < b.length))).take 10 ∧
      (∀ it ∈ items, 1024 < it.blob.length) ∧
      items.head?.map MediaItem.cap = some (some ("подпись".data.take 1024)) ∧
      (∀ it ∈ items.tail, it.cap = none)) := by
  have h1 : (decide (1024 < blobBig.length)) = true := by
    simp only [blobBig, List.length_replicate]
    rfl
  have h2 : (decide (1024 < (List.replicate 10 (1 : Nat) : Blob).length)) = false := by
    simp only [List.length_replicate]
    rfl
  have hfilter : photosSample.filter (fun b => decide (1024 < b.length))
      = [blobBig, blobBig] := by
    simp [photosSample, List.filter_cons, h1, h2]
  constructor
  · rw [hfilter]
    simp
  · exact (c10_media_batch cfgA photosSample "подпись".data).2 rfl
      (by rw [hfilter]; simp) (by decide)

theorem process_task_skip (cfg : Config) (st : MonitorState) (t : TaskInfo)
    (b : Bool) (now : Nat) (out : TaskOutcome) (hm : taskKey cfg t ∈ st.processed) :
    process_task cfg st t b now out = { ret := false, state := st, events := [] } := by
  simp [process_task, hm]

theorem alookup_ainsert_self (l : List (String × FailInfo)) (k : String) (v : FailInfo) :
    alookup (ainsert l k v) k = some v := by
  induction l with
  | nil => simp [ainsert, alookup]
  | cons p tl ih =>
    obtain ⟨a, w⟩ := p
    by_cases h : a = k
    · simp [ainsert, alookup, h]
    · simp [ainsert, alookup, h, ih]

/-- C2: a task whose extraction yields zero photos never transitions to
success — process_task returns false, adds nothing to the processed set,
persists and routes nothing — and it lands in the retryable-failure queue
with an incremented attempt count and last_seen set to the current time on a
first pass, or is marked permanently failed on a retry pass. -/
theorem c2_zero_photos :
    ∀ (cfg : Config) (st : MonitorState) (t : TaskInfo) (is_retry : Bool)
      (now : Nat) (out : TaskOutcome),
      taskKey cfg t ∉ st.processed →
      out.modalOpens = true →
      out.extracted.photos_data = [] →
      (process_task cfg st t is_retry now out).ret = false ∧
      (process_task cfg st t is_retry now out).state.processed = st.processed ∧
      (process_task cfg st t is_retry now out).events = [] ∧
      (is_retry = false →
        alookup (process_task cfg st t is_retry now out).state.failed (taskKey cfg t) =
          some ⟨(alookup st.failed (taskKey cfg t)).elim 0 FailInfo.attempts + 1, now, t⟩) ∧
      (is_retry = true →
        (process_task cfg st t is_retry now out).state.stats = incPermanent st.stats) := by
  intro cfg st t is_retry now out hmem hmodal hphotos
  cases is_retry
  · refine ⟨?_, ?_, ?_, ?_, ?_⟩ <;>
      simp [process_task, hmem, hmodal, hphotos, alookup_ainsert_self]
  · refine ⟨?_, ?_, ?_, ?_, ?_⟩ <;>
      simp [process_task, hmem, hmodal, hphotos]

/-- C2 witness: a first pass over the sample task with zero photos fails,
emits nothing, and enqueues the key with one attempt and last_seen 5. -/
theorem c2_zero_photos_witness :
    (process_task cfgA initialState taskA false 5 outNoPhotos).ret = false ∧
    (process_task cfgA initialState taskA false 5 outNoPhotos).state.processed = [] ∧
    (process_task cfgA initialState taskA false 5 outNoPhotos).events = [] ∧
    alookup (process_task cfgA initialState taskA false 5 outNoPhotos).state.failed
      (taskKey cfgA taskA) = some ⟨1, 5, taskA⟩ := by
  have h := c2_zero_photos cfgA initialState taskA false 5 outNoPhotos
    (List.not_mem_nil _) rfl rfl
  exact ⟨h.1, h.2.1, h.2.2.1, h.2.2.2.1 rfl⟩

/-- C8: delivery failures do not block completion — whatever the Google
append and Telegram outcomes, a task with photos and a working local store
completes: process_task returns true, the key enters the processed set, the
CSV row and the daily JSON backup are both written, and any subsequent
invocation for the same key returns false with no events, so the task is
never re-sent. -/
theorem c8_delivery_independent :
    ∀ (cfg : Config) (st : MonitorState) (t : TaskInfo) (is_retry : Bool)
      (now : Nat) (out : TaskOutcome),
      taskKey cfg t ∉ st.processed →
      out.modalOpens = true →
      out.extracted.photos_data ≠ [] →
      out.csvOk = true →
      out.jsonOk = true →
      (process_task cfg st t is_retry now out).ret = true ∧
      taskKey cfg t ∈ (process_task cfg st t is_retry now out).state.processed ∧
      Event.write (taskKey cfg t) WriteKind.csv ∈
        (process_task cfg st t is_retry now out).events ∧
      Event.write (taskKey cfg t) WriteKind.json ∈
        (process_task cfg st t is_retry now out).events ∧
      (∀ (is_retry2 : Bool) (now2 : Nat) (out2 : TaskOutcome),
        process_task cfg (process_task cfg st t is_retry now out).state t is_retry2 now2 out2 =
          { ret := false, state := (process_task cfg st t is_retry now out).state,
            events := [] }) := by
  intro cfg st t b now out hmem hmodal hphotos hcsv hjson
  have hok : ¬((save_task_data cfg (taskKey cfg t) out st.stats).ok = false) := by
    simp [save_task_data, hcsv]
  have hstate : (process_task cfg st t b now out).state.processed =
      taskKey cfg t :: st.processed := by
    simp [process_task, hmem, hmodal, hphotos, hok]
  refine ⟨?_, ?_, ?_, ?_, ?_⟩
  · simp [process_task, hmem, hmodal, hphotos, hok]
  · rw [hstate]
    exact List.mem_cons_self _ _
  · simp [process_task, hmem, hmodal, hphotos, hok, save_task_data, hcsv, hjson]
  · simp [process_task, hmem, hmodal, hphotos, hok, save_task_data, hcsv, hjson]
  · intro b2 now2 out2
    have hm : taskKey cfg t ∈ (process_task cfg st t b now out).state.processed := by
      rw [hstate]
      exact List.mem_cons_self _ _
    exact process_task_skip cfg _ t b2 now2 out2 hm

/-- C8 witness: the sample task with one photo, a failed Google append and a
working local store completes, writes both local records, and a later call
for the same key is a no-op. -/
theorem c8_delivery_independent_witness :
    (process_task cfgA initialState taskA false 3 outPhoto).ret = true ∧
    taskKey cfgA taskA ∈ (process_task cfgA initialState taskA false 3 outPhoto).state.processed ∧
    Event.write (taskKey cfgA taskA) WriteKind.csv ∈
      (process_task cfgA initialState taskA false 3 outPhoto).events ∧
    Event.write (taskKey cfgA taskA) WriteKind.json ∈
      (process_task cfgA initialState taskA false 3 outPhoto).events ∧
    process_task cfgA (process_task cfgA initialState taskA false 3 outPhoto).state taskA
        true 9 outPhoto =
      { ret := false, state := (process_task cfgA initialState taskA false 3 outPhoto).state,
        events := [] } := by
  have h := c8_delivery_independent cfgA initialState taskA false 3 outPhoto
    (List.not_mem_nil _) rfl (by decide) rfl rfl
  exact ⟨h.1, h.2.1, h.2.2.1, h.2.2.2.1, h.2.2.2.2 true 9 outPhoto⟩

theorem save_stats_perm (cfg : Config) (key : String) (out : TaskOutcome) (st : Stats) :
    (save_task_data cfg key out st).stats.tasks_failed_permanent =
      st.tasks_failed_permanent := by
  by_cases h1 : (cfg.googleEnabled && out.googleOk) = true <;>
    by_cases h2 : out.csvOk = true <;> simp [save_task_data, h1, h2]

theorem process_retry_perm (cfg : Config) (st : MonitorState) (t : TaskInfo)
    (now : Nat) (out : TaskOutcome) (hmem : taskKey cfg t ∉ st.processed) :
    (process_task cfg st t true now out).state.stats.tasks_failed_permanent =
      st.stats.tasks_failed_permanent +
        (if out.modalOpens = true ∧ out.extracted.photos_data = [] then 1 else 0) := by
  by_cases hm : out.modalOpens = true
  · by_cases hp : out.extracted.photos_data = []
    · simp [process_task, hmem, hm, hp, incPermanent]
    · by_cases hok : (save_task_data cfg (taskKey cfg t) out st.stats).ok = false
      · simp [process_task, hmem, hm, hp, hok, save_stats_perm]
      · simp [process_task, hmem, hm, hp, hok, save_stats_perm]
  · have hmf : out.modalOpens = false := by
      revert hm
      cases out.modalOpens <;> simp
    simp [process_task, hmem, hmf]

theorem aerase_single (K : String) (info : FailInfo) : aerase [(K, info)] K = [] := by
  simp [aerase]

/-- C3 counterexample: with the default limit of 3, a pending task at one
prior attempt and freshly seen (neither the attempt-limit condition nor the
one-hour staleness condition holds) is nonetheless marked permanently failed
by the retry sweep, because a retry attempt that opens the modal but
extracts zero photos takes the permanent-failure path immediately; the entry
even stays in the pending queue. -/
theorem c3_permanent_counterexample :
    (retry_failed_tasks cfgA stPending envNoPhotos 1000).1.stats.tasks_failed_permanent = 1 ∧
    (retry_failed_tasks cfgA stPending envNoPhotos 1000).1.failed =
      [("7_0", ⟨1, 1000, taskA⟩)] ∧
    (1 : Nat) < cfgA.maxRetryAttempts ∧
    ((1000 : Nat) - 1000 ≤ 3600) := by
  decide

theorem retry_single_process_state (cfg : Config) (pr : List String) (stats : Stats)
    (K : String) (info : FailInfo) (env : String → RetryEnv) (now : Nat)
    (hA : ¬ cfg.maxRetryAttempts ≤ info.attempts)
    (hH : ¬ 3600 < now - info.last_seen)
    (hrun : (env K).stale = false ∨
      ((env K).stale = true ∧ info.task.task_id.isSome = true ∧ (env K).refound = true)) :
    (retry_failed_tasks cfg ⟨pr, [(K, info)], stats⟩ env now).1.stats =
      (process_task cfg ⟨pr, [(K, info)], stats⟩ info.task true now (env K).out).state.stats := by
  rcases hrun with hs | ⟨hs, hrf1, hrf2⟩
  · simp [retry_failed_tasks, foldSteps, retry_step, hA, hH, hs]
  · simp [retry_failed_tasks, foldSteps, retry_step, hA, hH, hs, hrf1, hrf2]

/-- C3 as amended: during a retry sweep over a pending entry, the
permanent-failure marker is set exactly when the entry's attempt count has
reached max_retry_attempts, or when the retry attempt actually runs (entry
below the limit, seen within the last hour, element healthy or successfully
re-resolved) and opens the modal but extracts zero photos — the latter
regardless of attempt count; the one-hour-unseen condition instead drops the
entry from the pending queue silently, without the permanent marker. -/
theorem c3_permanent_amended :
    ∀ (cfg : Config) (pr : List String) (stats : Stats) (K : String)
      (info : FailInfo) (env : String → RetryEnv) (now : Nat),
      K ∉ pr →
      taskKey cfg info.task = K →
      ((retry_failed_tasks cfg ⟨pr, [(K, info)], stats⟩ env now).1.stats.tasks_failed_permanent
          = stats.tasks_failed_permanent + 1 ↔
        (cfg.maxRetryAttempts ≤ info.attempts ∨
          (info.attempts < cfg.maxRetryAttempts ∧ now - info.last_seen ≤ 3600 ∧
            ((env K).stale = false ∨
              ((env K).stale = true ∧ info.task.task_id.isSome = true ∧
                (env K).refound = true)) ∧
            (env K).out.modalOpens = true ∧
            (env K).out.extracted.photos_data = []))) ∧
      (info.attempts < cfg.maxRetryAttempts → 3600 < now - info.last_seen →
        (retry_failed_tasks cfg ⟨pr, [(K, info)], stats⟩ env now).1.failed = [] ∧
        (retry_failed_tasks cfg ⟨pr, [(K, info)], stats⟩ env now).1.stats = stats) := by
  intro cfg pr stats K info env now hmem hkey
  by_cases hA : cfg.maxRetryAttempts ≤ info.attempts
  · refine ⟨⟨fun _ => Or.inl hA, fun _ => ?_⟩, fun h1 _ => absurd hA (by omega)⟩
    simp [retry_failed_tasks, foldSteps, retry_step, hA, incPermanent]
  · by_cases hH : 3600 < now - info.last_seen
    · have heq : (retry_failed_tasks cfg ⟨pr, [(K, info)], stats⟩ env now).1.stats = stats := by
        simp [retry_failed_tasks, foldSteps, retry_step, hA, hH]
      refine ⟨?_, fun _ _ => ⟨?_, heq⟩⟩
      · rw [heq]
        constructor
        · intro hcontra
          omega
        · rintro (h | h)
          · exact absurd h hA
          · omega
      · simp [retry_failed_tasks, foldSteps, retry_step, hA, hH, aerase_single]
    · have hrunOrDrop : ((env K).stale = false ∨
          ((env K).stale = true ∧ info.task.task_id.isSome = true ∧
            (env K).refound = true)) ∨
          ((env K).stale = true ∧
            ¬(info.task.task_id.isSome = true ∧ (env K).refound = true)) := by
        cases hs : (env K).stale
        · exact Or.inl (Or.inl rfl)
        · by_cases hrf : info.task.task_id.isSome = true ∧ (env K).refound = true
          · exact Or.inl (Or.inr ⟨rfl, hrf⟩)
          · exact Or.inr ⟨rfl, hrf⟩
      rcases hrunOrDrop with hrun | ⟨hs, hrf⟩
      · have hstats := retry_single_process_state cfg pr stats K info env now hA hH hrun
        have hmem2 : taskKey cfg info.task ∉
            (⟨pr, [(K, info)], stats⟩ : MonitorState).processed := by
          rw [hkey]
          exact hmem
        have hperm := process_retry_perm cfg ⟨pr, [(K, info)], stats⟩ info.task now
          (env K).out hmem2
        refine ⟨?_, fun _ h2 => absurd h2 hH⟩
        rw [hstats, hperm]
        by_cases hcond : (env K).out.modalOpens = true ∧
            (env K).out.extracted.photos_data = []
        · simp only [if_pos hcond]
          refine ⟨fun _ => Or.inr ⟨by omega, by omega, hrun, hcond.1, hcond.2⟩,
            fun _ => by simp⟩
        · simp only [if_neg hcond]
          constructor
          · intro hcontra
            omega
          · rintro (h | h)
            · exact absurd h hA
            · exact absurd ⟨h.2.2.2.1, h.2.2.2.2⟩ hcond
      · have heq : (retry_failed_tasks cfg ⟨pr, [(K, info)], stats⟩ env now).1.stats
            = stats := by
          simp [retry_failed_tasks, foldSteps, retry_step, hA, hH, hs, hrf]
        refine ⟨?_, fun _ h2 => absurd h2 hH⟩
        rw [heq]
        constructor
        · intro hcontra
          omega
        · rintro (h | h)
          · exact absurd h hA
          · rcases h.2.2.1 with hh | hh
            · rw [hs] at hh
              exact absurd hh (by simp)
            · exact absurd hh.2 hrf

/-- C3 amended witness: the amended characterization instantiated at the
counterexample state — a fresh entry below the limit whose retry extracts
zero photos is marked permanently failed. -/
theorem c3_permanent_amended_witness :
    (retry_failed_tasks cfgA ⟨[], [("7_0", ⟨1, 1000, taskA⟩)], zeroStats⟩
        envNoPhotos 1000).1.stats.tasks_failed_permanent =
      zeroStats.tasks_failed_permanent + 1 :=
  (c3_permanent_amended cfgA [] zeroStats "7_0" ⟨1, 1000, taskA⟩ envNoPhotos 1000
      (List.not_mem_nil _) (by decide)).1.mpr
    (Or.inr ⟨by decide, by decide, Or.inl rfl, rfl, rfl⟩)

theorem hasKey_append (K : String) (a b : List Event) :
    hasKey K (a ++ b) = (hasKey K a || hasKey K b) := by
  simp [hasKey]

theorem succCount_append (K : String) (a b : List Event) :
    succCount K (a ++ b) = succCount K a + succCount K b :=
  List.count_append _ _ _

theorem succCount_eq_zero_of_hasKey (K : String) (evs : List Event)
    (h : hasKey K evs = false) : succCount K evs = 0 := by
  rw [succCount, List.count_eq_zero]
  intro hmem
  have h2 : hasKey K evs = true := by
    rw [hasKey]
    exact List.any_eq_true.mpr ⟨Event.success K, hmem, by simp [eventKey]⟩
  rw [h] at h2
  exact Bool.noConfusion h2

theorem save_writes_eq (cfg : Config) (key : String) (out : TaskOutcome) (st : Stats) :
    (save_task_data cfg key out st).writes =
      (if (cfg.googleEnabled && out.googleOk) = true then [Event.write key .google] else []) ++
      (if out.csvOk = true then [Event.write key .csv] else []) ++
      (if out.jsonOk = true then [Event.write key .json] else []) := rfl

theorem mem_ite_singleton {c : Prop} [Decidable c] {a e : Event}
    (h : e ∈ (if c then [a] else [])) : e = a := by
  split at h
  · exact List.mem_singleton.mp h
  · exact absurd h (List.not_mem_nil e)

theorem save_writes_key (cfg : Config) (key : String) (out : TaskOutcome) (st : Stats) :
    ∀ e ∈ (save_task_data cfg key out st).writes, eventKey e = key := by
  intro e he
  rw [save_writes_eq] at he
  rcases List.mem_append.mp he with h | h
  · rcases List.mem_append.mp h with h2 | h2 <;> rw [mem_ite_singleton h2] <;> rfl
  · rw [mem_ite_singleton h]
    rfl

theorem save_no_success (cfg : Config) (key : String) (out : TaskOutcome) (st : Stats)
    (K : String) : Event.success K ∉ (save_task_data cfg key out st).writes := by
  intro he
  rw [save_writes_eq] at he
  rcases List.mem_append.mp he with h | h
  · rcases List.mem_append.mp h with h2 | h2 <;>
      exact Event.noConfusion (mem_ite_singleton h2)
  · exact Event.noConfusion (mem_ite_singleton h)

theorem process_task_shape (cfg : Config) (st : MonitorState) (t : TaskInfo)
    (b : Bool) (now : Nat) (out : TaskOutcome) :
    ((process_task cfg st t b now out).state.processed = st.processed ∧
      (∀ e ∈ (process_task cfg st t b now out).events, eventKey e = taskKey cfg t) ∧
      (∀ K, Event.success K ∉ (process_task cfg st t b now out).events)) ∨
    ((process_task cfg st t b now out).state.processed = taskKey cfg t :: st.processed ∧
      ∃ l, (process_task cfg st t b now out).events = l ++ [Event.success (taskKey cfg t)] ∧
        (∀ e ∈ l, eventKey e = taskKey cfg t) ∧
        (∀ K, Event.success K ∉ l)) := by
  by_cases hmem : taskKey cfg t ∈ st.processed
  · left
    rw [process_task_skip cfg st t b now out hmem]
    exact ⟨rfl, by simp, by simp⟩
  · by_cases hmodal : out.modalOpens = false
    · left
      refine ⟨?_, ?_, ?_⟩ <;> simp [process_task, hmem, hmodal]
    · have hmt : out.modalOpens = true := by
        revert hmodal
        cases out.modalOpens <;> simp
      by_cases hp : out.extracted.photos_data = []
      · cases b
        · left
          refine ⟨?_, ?_, ?_⟩ <;> simp [process_task, hmem, hmt, hp]
        · left
          refine ⟨?_, ?_, ?_⟩ <;> simp [process_task, hmem, hmt, hp]
      · by_cases hok : (save_task_data cfg (taskKey cfg t) out st.stats).ok = false
        · left
          have hev : (process_task cfg st t b now out).events =
              (save_task_data cfg (taskKey cfg t) out st.stats).writes := by
            simp [process_task, hmem, hmt, hp, hok]
          refine ⟨by simp [process_task, hmem, hmt, hp, hok], ?_, ?_⟩
          · rw [hev]
            exact save_writes_key _ _ _ _
          · intro K
            rw [hev]
            exact save_no_success _ _ _ _ K
        · right
          have hev : (process_task cfg st t b now out).events =
              (save_task_data cfg (taskKey cfg t) out st.stats).writes ++
              ((if cfg.telegramEnabled = true then
                  (get_target_chats cfg (effectiveDistrict cfg out)).map
                    (fun c => Event.send (taskKey cfg t) c)
                else []) ++ [Event.success (taskKey cfg t)]) := by
            simp [process_task, hmem, hmt, hp, hok]
          refine ⟨by simp [process_task, hmem, hmt, hp, hok],
            (save_task_data cfg (taskKey cfg t) out st.stats).writes ++
              (if cfg.telegramEnabled = true then
                (get_target_chats cfg (effectiveDistrict cfg out)).map
                  (fun c => Event.send (taskKey cfg t) c)
              else []), ?_, ?_, ?_⟩
          · rw [hev, List.append_assoc]
          · intro e he
            rcases List.mem_append.mp he with h | h
            · exact save_writes_key _ _ _ _ e h
            · split_ifs at h
              · obtain ⟨c, _, hc⟩ := List.mem_map.mp h
                rw [← hc]
                rfl
              · exact absurd h (List.not_mem_nil e)
          · intro K hK
            rcases List.mem_append.mp hK with h | h
            · exact save_no_success _ _ _ _ K h
            · split_ifs at h
              · obtain ⟨c, _, hc⟩ := List.mem_map.mp h
                exact Event.noConfusion hc
              · exact absurd h (List.not_mem_nil _)

theorem pt_eventKey (cfg : Config) (st : MonitorState) (t : TaskInfo)
    (b : Bool) (now : Nat) (out : TaskOutcome) :
    ∀ e ∈ (process_task cfg st t b now out).events, eventKey e = taskKey cfg t := by
  rcases process_task_shape cfg st t b now out with ⟨_, hk, _⟩ | ⟨_, l, hev, hk, _⟩
  · exact hk
  · intro e he
    rw [hev] at he
    rcases List.mem_append.mp he with h | h
    · exact hk e h
    · rw [List.mem_singleton.mp h]
      rfl

theorem pt_mono (cfg : Config) (st : MonitorState) (t : TaskInfo)
    (b : Bool) (now : Nat) (out : TaskOutcome) (K : String) (h : K ∈ st.processed) :
    K ∈ (process_task cfg st t b now out).state.processed := by
  rcases process_task_shape cfg st t b now out with ⟨hp, _, _⟩ | ⟨hp, _⟩
  · rw [hp]
    exact h
  · rw [hp]
    exact List.mem_cons_of_mem _ h

theorem pt_blocked (cfg : Config) (st : MonitorState) (t : TaskInfo)
    (b : Bool) (now : Nat) (out : TaskOutcome) (K : String) (h : K ∈ st.processed) :
    K ∈ (process_task cfg st t b now out).state.processed ∧
      hasKey K (process_task cfg st t b now out).events = false := by
  refine ⟨pt_mono cfg st t b now out K h, ?_⟩
  by_cases hk : taskKey cfg t = K
  · subst hk
    rw [process_task_skip cfg st t b now out h]
    rfl
  · cases hh : hasKey K (process_task cfg st t b now out).events
    · rfl
    · exfalso
      rw [hasKey] at hh
      obtain ⟨e, he, hbeq⟩ := List.any_eq_true.mp hh
      have hkey := pt_eventKey cfg st t b now out e he
      rw [hkey] at hbeq
      exact hk (eq_of_beq hbeq)

theorem pt_succ (cfg : Config) (st : MonitorState) (t : TaskInfo)
    (b : Bool) (now : Nat) (out : TaskOutcome) (K : String)
    (h : Event.success K ∈ (process_task cfg st t b now out).events) :
    K ∈ (process_task cfg st t b now out).state.processed := by
  rcases process_task_shape cfg st t b now out with ⟨_, _, hns⟩ | ⟨hp, l, hev, _, hns⟩
  · exact absurd h (hns K)
  · rw [hev] at h
    rcases List.mem_append.mp h with hl | hr
    · exact absurd hl (hns K)
    · have heq : Event.success K = Event.success (taskKey cfg t) := List.mem_singleton.mp hr
      have hK : K = taskKey cfg t := by
        injection heq
      rw [hp, hK]
      exact List.mem_cons_self _ _

theorem pt_count (cfg : Config) (st : MonitorState) (t : TaskInfo)
    (b : Bool) (now : Nat) (out : TaskOutcome) (K : String) :
    succCount K (process_task cfg st t b now out).events ≤ 1 := by
  rcases process_task_shape cfg st t b now out with ⟨_, _, hns⟩ | ⟨_, l, hev, _, hns⟩
  · rw [succCount, List.count_eq_zero.mpr (hns K)]
    omega
  · rw [hev, succCount_append]
    have h1 : succCount K l = 0 := by
      rw [succCount, List.count_eq_zero]
      exact hns K
    have h2 : succCount K [Event.success (taskKey cfg t)] ≤ 1 := by
      rw [succCount, List.count_singleton]
      split <;> omega
    omega

theorem foldSteps_mono {S ι : Type} (f : S → ι → S × List Event)
    (proc : S → List String) (K : String)
    (hmono : ∀ s i, K ∈ proc s → K ∈ proc (f s i).1) :
    ∀ (items : List ι) (s : S), K ∈ proc s → K ∈ proc (foldSteps f s items).1 := by
  intro items
  induction items with
  | nil => intro s h; simpa [foldSteps] using h
  | cons i rest ih =>
    intro s h
    simp only [foldSteps]
    exact ih (f s i).1 (hmono s i h)

theorem foldSteps_blocked {S ι : Type} (f : S → ι → S × List Event)
    (proc : S → List String) (K : String)
    (hb : ∀ s i, K ∈ proc s → K ∈ proc (f s i).1 ∧ hasKey K (f s i).2 = false) :
    ∀ (items : List ι) (s : S), K ∈ proc s →
      K ∈ proc (foldSteps f s items).1 ∧ hasKey K (foldSteps f s items).2 = false := by
  intro items
  induction items with
  | nil => intro s h; exact ⟨by simpa [foldSteps] using h, rfl⟩
  | cons i rest ih =>
    intro s h
    obtain ⟨h1, h2⟩ := hb s i h
    obtain ⟨h3, h4⟩ := ih (f s i).1 h1
    refine ⟨by simpa [foldSteps] using h3, ?_⟩
    simp only [foldSteps, hasKey_append, h2, h4, Bool.or_false]

theorem foldSteps_succ {S ι : Type} (f : S → ι → S × List Event)
    (proc : S → List String) (K : String)
    (hmono : ∀ s i, K ∈ proc s → K ∈ proc (f s i).1)
    (hsucc : ∀ s i, Event.success K ∈ (f s i).2 → K ∈ proc (f s i).1) :
    ∀ (items : List ι) (s : S), Event.success K ∈ (foldSteps f s items).2 →
      K ∈ proc (foldSteps f s items).1 := by
  intro items
  induction items with
  | nil => intro s h; simp [foldSteps] at h
  | cons i rest ih =>
    intro s h
    simp only [foldSteps] at h ⊢
    rcases List.mem_append.mp h with h | h
    · exact foldSteps_mono f proc K hmono rest (f s i).1 (hsucc s i h)
    · exact ih (f s i).1 h

theorem foldSteps_count {S ι : Type} (f : S → ι → S × List Event)
    (proc : S → List String) (K : String)
    (hb : ∀ s i, K ∈ proc s → K ∈ proc (f s i).1 ∧ hasKey K (f s i).2 = false)
    (hsucc : ∀ s i, Event.success K ∈ (f s i).2 → K ∈ proc (f s i).1)
    (hcnt : ∀ s i, succCount K (f s i).2 ≤ 1) :
    ∀ (items : List ι) (s : S), succCount K (foldSteps f s items).2 ≤ 1 := by
  intro items
  induction items with
  | nil => intro s; simp [foldSteps, succCount]
  | cons i rest ih =>
    intro s
    simp only [foldSteps, succCount_append]
    by_cases hmem : Event.success K ∈ (f s i).2
    · have h1 : K ∈ proc (f s i).1 := hsucc s i hmem
      have h2 := (foldSteps_blocked f proc K hb rest (f s i).1 h1).2
      have h3 : succCount K (foldSteps f (f s i).1 rest).2 = 0 :=
        succCount_eq_zero_of_hasKey _ _ h2
      have h4 := hcnt s i
      omega
    · have h1 : succCount K (f s i).2 = 0 := by
        rw [succCount, List.count_eq_zero]
        exact hmem
      have h2 := ih (f s i).1
      omega

theorem foldSteps_pres {S ι : Type} (f : S → ι → S × List Event) (P : S → Prop)
    (hf : ∀ s i, P s → P (f s i).1) :
    ∀ (items : List ι) (s : S), P s → P (foldSteps f s items).1 := by
  intro items
  induction items with
  | nil => intro s h; simpa [foldSteps] using h
  | cons i rest ih =>
    intro s h
    simp only [foldSteps]
    exact ih (f s i).1 (hf s i h)

theorem dstep_mono (cfg : Config) (now : Nat) (K : String) :
    ∀ (st : MonitorState) (item : TaskInfo × TaskOutcome), K ∈ st.processed →
      K ∈ (discover_step cfg now st item).1.processed := by
  intro st item h
  simp only [discover_step]
  split
  · exact h
  · exact pt_mono cfg st item.1 false now item.2 K h

theorem dstep_blocked (cfg : Config) (now : Nat) (K : String) :
    ∀ (st : MonitorState) (item : TaskInfo × TaskOutcome), K ∈ st.processed →
      K ∈ (discover_step cfg now st item).1.processed ∧
        hasKey K (discover_step cfg now st item).2 = false := by
  intro st item h
  simp only [discover_step]
  split
  · exact ⟨h, rfl⟩
  · exact pt_blocked cfg st item.1 false now item.2 K h

theorem dstep_succ (cfg : Config) (now : Nat) (K : String) :
    ∀ (st : MonitorState) (item : TaskInfo × TaskOutcome),
      Event.success K ∈ (discover_step cfg now st item).2 →
      K ∈ (discover_step cfg now st item).1.processed := by
  intro st item h
  simp only [discover_step] at h ⊢
  split at h
  · exact absurd h (List.not_mem_nil _)
  · rename_i hcond
    rw [if_neg hcond]
    exact pt_succ cfg st item.1 false now item.2 K h

theorem dstep_count (cfg : Config) (now : Nat) (K : String) :
    ∀ (st : MonitorState) (item : TaskInfo × TaskOutcome),
      succCount K (discover_step cfg now st item).2 ≤ 1 := by
  intro st item
  simp only [discover_step]
  split
  · simp [succCount]
  · exact pt_count cfg st item.1 false now item.2 K

theorem rstep_mono (cfg : Config) (now : Nat) (env : String → RetryEnv) (K : String) :
    ∀ (s : MonitorState × List String) (e : String × FailInfo), K ∈ s.1.processed →
      K ∈ ((retry_step cfg now env s e).1).1.processed := by
  intro s e h
  simp only [retry_step]
  split_ifs
  · exact h
  · exact h
  · exact pt_mono cfg s.1 e.2.task true now (env e.1).out K h
  · exact h
  · exact pt_mono cfg s.1 e.2.task true now (env e.1).out K h

theorem rstep_blocked (cfg : Config) (now : Nat) (env : String → RetryEnv) (K : String) :
    ∀ (s : MonitorState × List String) (e : String × FailInfo), K ∈ s.1.processed →
      K ∈ ((retry_step cfg now env s e).1).1.processed ∧
        hasKey K (retry_step cfg now env s e).2 = false := by
  intro s e h
  simp only [retry_step]
  split_ifs
  · exact ⟨h, rfl⟩
  · exact ⟨h, rfl⟩
  · exact pt_blocked cfg s.1 e.2.task true now (env e.1).out K h
  · exact ⟨h, rfl⟩
  · exact pt_blocked cfg s.1 e.2.task true now (env e.1).out K h

theorem rstep_succ (cfg : Config) (now : Nat) (env : String → RetryEnv) (K : String) :
    ∀ (s : MonitorState × List String) (e : String × FailInfo),
      Event.success K ∈ (retry_step cfg now env s e).2 →
      K ∈ ((retry_step cfg now env s e).1).1.processed := by
  intro s e h
  simp only [retry_step] at h ⊢
  split_ifs at h ⊢
  · exact absurd h (List.not_mem_nil _)
  · exact absurd h (List.not_mem_nil _)
  · exact pt_succ cfg s.1 e.2.task true now (env e.1).out K h
  · exact absurd h (List.not_mem_nil _)
  · exact pt_succ cfg s.1 e.2.task true now (env e.1).out K h

theorem rstep_count (cfg : Config) (now : Nat) (env : String → RetryEnv) (K : String) :
    ∀ (s : MonitorState × List String) (e : String × FailInfo),
      succCount K (retry_step cfg now env s e).2 ≤ 1 := by
  intro s e
  simp only [retry_step]
  split_ifs
  · simp [succCount]
  · simp [succCount]
  · exact pt_count cfg s.1 e.2.task true now (env e.1).out K
  · simp [succCount]
  · exact pt_count cfg s.1 e.2.task true now (env e.1).out K

theorem runOp_mono (cfg : Config) (K : String) :
    ∀ (st : MonitorState) (op : Op), K ∈ st.processed →
      K ∈ (runOp cfg st op).1.processed := by
  intro st op h
  cases op with
  | discover items now =>
    exact foldSteps_mono (discover_step cfg now) MonitorState.processed K
      (dstep_mono cfg now K) items st h
  | retrySweep env now =>
    simp only [runOp, retry_failed_tasks]
    split_ifs
    · exact h
    · exact foldSteps_mono (retry_step cfg now env) (fun s => s.1.processed) K
        (rstep_mono cfg now env K) st.failed (st, []) h
  | reportFlush => exact h

theorem runOp_blocked (cfg : Config) (K : String) :
    ∀ (st : MonitorState) (op : Op), K ∈ st.processed →
      K ∈ (runOp cfg st op).1.processed ∧ hasKey K (runOp cfg st op).2 = false := by
  intro st op h
  cases op with
  | discover items now =>
    exact foldSteps_blocked (discover_step cfg now) MonitorState.processed K
      (dstep_blocked cfg now K) items st h
  | retrySweep env now =>
    simp only [runOp, retry_failed_tasks]
    split_ifs
    · exact ⟨h, rfl⟩
    · exact foldSteps_blocked (retry_step cfg now env) (fun s => s.1.processed) K
        (rstep_blocked cfg now env K) st.failed (st, []) h
  | reportFlush => exact ⟨h, rfl⟩

theorem runOp_succ (cfg : Config) (K : String) :
    ∀ (st : MonitorState) (op : Op), Event.success K ∈ (runOp cfg st op).2 →
      K ∈ (runOp cfg st op).1.processed := by
  intro st op h
  cases op with
  | discover items now =>
    exact foldSteps_succ (discover_step cfg now) MonitorState.processed K
      (dstep_mono cfg now K) (dstep_succ cfg now K) items st h
  | retrySweep env now =>
    simp only [runOp, retry_failed_tasks] at h ⊢
    split_ifs at h ⊢
    · exact absurd h (List.not_mem_nil _)
    · exact foldSteps_succ (retry_step cfg now env) (fun s => s.1.processed) K
        (rstep_mono cfg now env K) (rstep_succ cfg now env K) st.failed (st, []) h
  | reportFlush => exact absurd h (List.not_mem_nil _)

theorem runOp_count (cfg : Config) (K : String) :
    ∀ (st : MonitorState) (op : Op), succCount K (runOp cfg st op).2 ≤ 1 := by
  intro st op
  cases op with
  | discover items now =>
    exact foldSteps_count (discover_step cfg now) MonitorState.processed K
      (dstep_blocked cfg now K) (dstep_succ cfg now K) (dstep_count cfg now K) items st
  | retrySweep env now =>
    simp only [runOp, retry_failed_tasks]
    split_ifs
    · simp [succCount]
    · exact foldSteps_count (retry_step cfg now env) (fun s => s.1.processed) K
        (rstep_blocked cfg now env K) (rstep_succ cfg now env K)
        (rstep_count cfg now env K) st.failed (st, [])
  | reportFlush => simp [runOp, succCount]

/-- C1: over any run from the startup state, an identity key K transitions
to success at most once; once a success for K has been emitted, every later
pipeline operation — discovery or retry — emits no event for K at all (no
write, no send, no success), so K is never reprocessed or re-sent; and
process_task itself skips a key already in the processed set, returning
false with no state change and no events. -/
theorem c1_dedup_at_most_once :
    (∀ (cfg : Config) (K : String) (ops : List Op),
      succCount K (runFromStart cfg ops).2 ≤ 1) ∧
    (∀ (cfg : Config) (K : String) (ops1 ops2 : List Op),
      Event.success K ∈ (runFromStart cfg ops1).2 →
      hasKey K (runOps cfg (runFromStart cfg ops1).1 ops2).2 = false) ∧
    (∀ (cfg : Config) (st : MonitorState) (t : TaskInfo) (b : Bool) (now : Nat)
      (out : TaskOutcome), taskKey cfg t ∈ st.processed →
      process_task cfg st t b now out = { ret := false, state := st, events := [] }) := by
  refine ⟨?_, ?_, ?_⟩
  · intro cfg K ops
    exact foldSteps_count (fun s op => runOp cfg s op) MonitorState.processed K
      (fun s op h => runOp_blocked cfg K s op h)
      (fun s op h => runOp_succ cfg K s op h)
      (fun s op => runOp_count cfg K s op) ops initialState
  · intro cfg K ops1 ops2 hs
    have hmem : K ∈ (runFromStart cfg ops1).1.processed :=
      foldSteps_succ (fun s op => runOp cfg s op) MonitorState.processed K
        (fun s op h => runOp_mono cfg K s op h)
        (fun s op h => runOp_succ cfg K s op h) ops1 initialState hs
    exact (foldSteps_blocked (fun s op => runOp cfg s op) MonitorState.processed K
      (fun s op h => runOp_blocked cfg K s op h) ops2
      (runFromStart cfg ops1).1 hmem).2
  · intro cfg st t b now out h
    exact process_task_skip cfg st t b now out h

/-- C1 witness: after processing the sample task to success in one discovery
pass, a later discovery pass that sees the same task emits no event for its
key. -/
theorem c1_dedup_witness :
    Event.success (taskKey cfgA taskA) ∈
        (runFromStart cfgA [Op.discover [(taskA, outPhoto)] 0]).2 ∧
    hasKey (taskKey cfgA taskA)
        (runOps cfgA (runFromStart cfgA [Op.discover [(taskA, outPhoto)] 0]).1
          [Op.discover [(taskA, outPhoto)] 5]).2 = false ∧
    process_task cfgA ⟨[taskKey cfgA taskA], [], zeroStats⟩ taskA false 5 outPhoto =
      { ret := false, state := ⟨[taskKey cfgA taskA], [], zeroStats⟩, events := [] } :=
  ⟨by decide,
   c1_dedup_at_most_once.2.1 cfgA (taskKey cfgA taskA)
     [Op.discover [(taskA, outPhoto)] 0] [Op.discover [(taskA, outPhoto)] 5]
     (by decide),
   c1_dedup_at_most_once.2.2 cfgA ⟨[taskKey cfgA taskA], [], zeroStats⟩ taskA false 5
     outPhoto (List.mem_singleton.mpr rfl)⟩

theorem akeys_ainsert (l : List (String × FailInfo)) (k : String) (v : FailInfo) :
    akeys (ainsert l k v) = akeys l ∨ akeys (ainsert l k v) = akeys l ++ [k] := by
  induction l with
  | nil => right; rfl
  | cons p tl ih =>
    obtain ⟨a, w⟩ := p
    by_cases hak : a = k
    · left
      simp [ainsert, hak, akeys]
    · rcases ih with h | h
      · left
        simp [ainsert, hak, akeys]
        simpa [akeys] using h
      · right
        simp [ainsert, hak, akeys]
        simpa [akeys] using h

theorem akeys_aerase_sub (l : List (String × FailInfo)) (k K : String)
    (h : K ∈ akeys (aerase l k)) : K ∈ akeys l := by
  obtain ⟨p, hp, hpk⟩ := List.mem_map.mp h
  exact List.mem_map.mpr ⟨p, (List.mem_filter.mp hp).1, hpk⟩

theorem akeys_aerase_self (l : List (String × FailInfo)) (k : String) :
    k ∉ akeys (aerase l k) := by
  intro h
  obtain ⟨p, hp, hpk⟩ := List.mem_map.mp h
  have h2 := (List.mem_filter.mp hp).2
  rw [decide_eq_true_eq] at h2
  exact h2 hpk

theorem akeys_foldl_aerase (K : String) :
    ∀ (keys : List String) (l : List (String × FailInfo)),
      K ∈ akeys (keys.foldl aerase l) → K ∈ akeys l := by
  intro keys
  induction keys with
  | nil => intro l h; simpa using h
  | cons k ks ih =>
    intro l h
    exact akeys_aerase_sub l k K (ih (aerase l k) (by simpa [List.foldl_cons] using h))

theorem pt_pres (cfg : Config) (st : MonitorState) (t : TaskInfo) (b : Bool)
    (now : Nat) (out : TaskOutcome) (hd : disjointPF st) :
    disjointPF (process_task cfg st t b now out).state := by
  by_cases hmem : taskKey cfg t ∈ st.processed
  · rw [process_task_skip cfg st t b now out hmem]
    exact hd
  · by_cases hmodal : out.modalOpens = false
    · have hst : (process_task cfg st t b now out).state = st := by
        simp [process_task, hmem, hmodal]
      rw [hst]
      exact hd
    · have hmt : out.modalOpens = true := by
        revert hmodal
        cases out.modalOpens <;> simp
      by_cases hp : out.extracted.photos_data = []
      · cases b
        · have hpr : (process_task cfg st t false now out).state.processed
              = st.processed := by
            simp [process_task, hmem, hmt, hp]
          have hfl : (process_task cfg st t false now out).state.failed =
              ainsert st.failed (taskKey cfg t)
                ⟨(alookup st.failed (taskKey cfg t)).elim 0 FailInfo.attempts + 1,
                  now, t⟩ := by
            simp [process_task, hmem, hmt, hp]
          intro K h
          obtain ⟨h1, h2⟩ := h
          rw [hpr] at h1
          rw [hfl] at h2
          rcases akeys_ainsert st.failed (taskKey cfg t)
              ⟨(alookup st.failed (taskKey cfg t)).elim 0 FailInfo.attempts + 1,
                now, t⟩ with heq | heq
          · rw [heq] at h2
            exact hd K ⟨h1, h2⟩
          · rw [heq] at h2
            rcases List.mem_append.mp h2 with h3 | h3
            · exact hd K ⟨h1, h3⟩
            · have hK : K = taskKey cfg t := List.mem_singleton.mp h3
              rw [hK] at h1
              exact hmem h1
        · have hst : (process_task cfg st t true now out).state =
              { st with stats := incPermanent st.stats } := by
            simp [process_task, hmem, hmt, hp]
          rw [hst]
          exact hd
      · by_cases hok : (save_task_data cfg (taskKey cfg t) out st.stats).ok = false
        · have hst : (process_task cfg st t b now out).state =
              { st with stats := (save_task_data cfg (taskKey cfg t) out st.stats).stats } := by
            simp [process_task, hmem, hmt, hp, hok]
          rw [hst]
          exact hd
        · have hpr : (process_task cfg st t b now out).state.processed =
              taskKey cfg t :: st.processed := by
            simp [process_task, hmem, hmt, hp, hok]
          have hfl : (process_task cfg st t b now out).state.failed =
              aerase st.failed (taskKey cfg t) := by
            simp [process_task, hmem, hmt, hp, hok]
          intro K h
          obtain ⟨h1, h2⟩ := h
          rw [hpr] at h1
          rw [hfl] at h2
          rcases List.mem_cons.mp h1 with hK | h1
          · rw [hK] at h2
            exact akeys_aerase_self st.failed (taskKey cfg t) h2
          · exact hd K ⟨h1, akeys_aerase_sub st.failed (taskKey cfg t) K h2⟩

theorem dstep_pres (cfg : Config) (now : Nat) :
    ∀ (st : MonitorState) (item : TaskInfo × TaskOutcome), disjointPF st →
      disjointPF (discover_step cfg now st item).1 := by
  intro st item hd
  simp only [discover_step]
  split
  · exact hd
  · exact pt_pres cfg st item.1 false now item.2 hd

theorem rstep_pres (cfg : Config) (now : Nat) (env : String → RetryEnv) :
    ∀ (s : MonitorState × List String) (e : String × FailInfo), disjointPF s.1 →
      disjointPF ((retry_step cfg now env s e).1).1 := by
  intro s e hd
  simp only [retry_step]
  split_ifs
  · exact hd
  · exact hd
  · exact pt_pres cfg s.1 e.2.task true now (env e.1).out hd
  · exact hd
  · exact pt_pres cfg s.1 e.2.task true now (env e.1).out hd

theorem runOp_pres (cfg : Config) :
    ∀ (st : MonitorState) (op : Op), disjointPF st → disjointPF (runOp cfg st op).1 := by
  intro st op hd
  cases op with
  | discover items now =>
    exact foldSteps_pres (discover_step cfg now) disjointPF (dstep_pres cfg now) items st hd
  | retrySweep env now =>
    simp only [runOp, retry_failed_tasks]
    split_ifs
    · exact hd
    · have h1 : disjointPF (foldSteps (retry_step cfg now env) (st, []) st.failed).1.1 :=
        foldSteps_pres (retry_step cfg now env) (fun s => disjointPF s.1)
          (rstep_pres cfg now env) st.failed (st, []) hd
      intro K h
      obtain ⟨hk1, hk2⟩ := h
      exact h1 K ⟨hk1, akeys_foldl_aerase K _ _ hk2⟩
  | reportFlush => exact hd

/-- C6: throughout any run from the startup state, an identity key is in at
most one of the processed set and the pending-failure map — a successful
completion moves the key into processed while deleting its pending entry,
and a key already processed is never inserted into pending_failures by any
later discovery or retry. -/
theorem c6_registry_disjoint :
    ∀ (cfg : Config) (ops : List Op) (K : String),
      ¬(K ∈ (runFromStart cfg ops).1.processed ∧
        K ∈ akeys (runFromStart cfg ops).1.failed) := by
  intro cfg ops K
  have h0 : disjointPF initialState := by
    intro K2 h
    exact absurd h.1 (List.not_mem_nil _)
  exact foldSteps_pres (fun s op => runOp cfg s op) disjointPF
    (fun s op => runOp_pres cfg s op) ops initialState h0 K

/-- C6 witness: disjointness instantiated after the run that completes the
sample task. -/
theorem c6_registry_disjoint_witness :
    ¬(taskKey cfgA taskA ∈
        (runFromStart cfgA [Op.discover [(taskA, outPhoto)] 0]).1.processed ∧
      taskKey cfgA taskA ∈
        akeys (runFromStart cfgA [Op.discover [(taskA, outPhoto)] 0]).1.failed) :=
  c6_registry_disjoint cfgA [Op.discover [(taskA, outPhoto)] 0] (taskKey cfgA taskA)

end Trabli
